import Mathlib

/-!
Verification of the fastapi-filters filter/sort specification compiler.

The definitions below are a shallow embedding of the Python sources:
  * `fastapi_filters/filters.py` (operator lookup table, alias generator,
    type adapter, raw-field expansion, value resolver),
  * `fastapi_filters/schemas.py` (CSV list normalizer),
  * `fastapi_filters_standard/filters.py` (the standard variant of the
    alias generator and type adapter),
  * `fastapi_filters_standard/docs.py` (OpenAPI schema fix-up).
Python dictionaries are modelled as association lists, Python `None` /
absent values as `Option`, and the open-ended Python type annotations as
the inductive type `Ty`.
-/

/-- The filter operator registry (`FilterOperator` enum referenced
throughout `fastapi_filters/filters.py`; every member that appears in the
sources is listed). -/
inductive FilterOperator
  | eq
  | ne
  | gt
  | ge
  | lt
  | le
  | like
  | not_like
  | ilike
  | not_ilike
  | in_
  | not_in
  | is_null
  | overlap
  | not_overlap
  | contains
  | not_contains
deriving DecidableEq, Fintype, Repr

/-- The Python enum member name (`op.name`), as used by the fallback branch
of `default_alias_generator` and `_get_field_name`. -/
def FilterOperator.opName : FilterOperator → String
  | .eq => "eq"
  | .ne => "ne"
  | .gt => "gt"
  | .ge => "ge"
  | .lt => "lt"
  | .le => "le"
  | .like => "like"
  | .not_like => "not_like"
  | .ilike => "ilike"
  | .not_ilike => "not_ilike"
  | .in_ => "in_"
  | .not_in => "not_in"
  | .is_null => "is_null"
  | .overlap => "overlap"
  | .not_overlap => "not_overlap"
  | .contains => "contains"
  | .not_contains => "not_contains"

/-- Python type annotations, as far as the filter compiler inspects them:
scalar types, sequence types (`list[T]`, `tuple[T, ...]`, ... — what
`utils.is_seq` recognizes), and the `CSVList[T]` encoding produced by the
type adapter. `named` covers every other scalar annotation. -/
inductive Ty
  | str
  | bool
  | int
  | named (s : String)
  | seq (elem : Ty)
  | csvList (elem : Ty)
deriving DecidableEq, Repr

/-- `utils.is_seq`: does the annotation denote a Python sequence type? -/
def is_seq : Ty → Bool
  | .seq _ => true
  | _ => false

/-- `utils.unwrap_seq_type`: the element type of a sequence annotation. -/
def unwrap_seq_type : Ty → Ty
  | .seq t => t
  | t => t

/-- `schemas.CSVList[T]`: the annotated list type carrying the CSV
before-validator and the non-exploded documentation marker. -/
def CSVList (t : Ty) : Ty := .csvList t

/-- Python `dict` lookup on an association list (first binding wins;
dict keys are unique, so at most one binding per key exists in use). -/
def alookup {κ α : Type} [DecidableEq κ] (k : κ) : List (κ × α) → Option α
  | [] => none
  | (k', v) :: rest => if k' = k then some v else alookup k rest

/-- `fields.FilterField`: a field definition. `operators` models the
optional additional-operator collection (`field.operators or ()` in the
source makes Python `None` behave as the empty collection, so both are the
empty list here); `op_types` models the optional per-operator override dict
(`field.op_types and op in field.op_types` makes `None` and `{}` behave
alike, so both are the empty list here). -/
structure FilterField where
  type : Ty
  default_op : FilterOperator
  operators : List FilterOperator
  alias_ : Option String
  op_types : List (FilterOperator × Ty)

/-- `LOOKUP_EXPRESSIONS` from `fastapi_filters/filters.py`: the
Django-style lookup-suffix table. -/
def LOOKUP_EXPRESSIONS : List (FilterOperator × String) :=
  [ (.eq, "")
  , (.ne, "__ne")
  , (.gt, "__gt")
  , (.ge, "__gte")
  , (.lt, "__lt")
  , (.le, "__lte")
  , (.like, "__contains")
  , (.not_like, "__not_like")
  , (.ilike, "__icontains")
  , (.not_ilike, "__not_ilike")
  , (.in_, "__in")
  , (.not_in, "__not_in")
  , (.is_null, "__isnull")
  , (.overlap, "__overlap")
  , (.not_overlap, "__not_overlap")
  , (.contains, "__contains")
  , (.not_contains, "__not_contains")
  ]

/-- Python `op.name.rstrip("_")`. -/
def rstripUnderscores (s : String) : String := s.dropRightWhile (fun c => c = '_')

/-- `LOOKUP_EXPRESSIONS.get(op, f"__{op.name.rstrip(chr(95))}")`, the suffix
expression computed identically inside `default_alias_generator` and
`_get_field_name`. -/
def lookupExprOf (op : FilterOperator) : String :=
  (alookup op LOOKUP_EXPRESSIONS).getD ("__" ++ rstripUnderscores op.opName)

/-- `default_alias_generator` from `fastapi_filters/filters.py`.
`alias or name` in Python takes `alias` only when it is a non-`None`,
non-empty string. -/
def default_alias_generator (name : String) (op : FilterOperator)
    (alias_ : Option String) : String :=
  let name := match alias_ with
    | some a => if a = "" then name else a
    | none => name
  let lookup_expr := lookupExprOf op
  if lookup_expr = "" then name
  else name ++ lookup_expr

/-- `adapt_type` from `fastapi_filters/filters.py`. The first guard
`field.op_types and op in field.op_types` succeeds exactly when the
override dict has a binding for `op`. -/
def adapt_type (field : FilterField) (tp : Ty) (op : FilterOperator) : Ty :=
  match alookup op field.op_types with
  | some t => t
  | none =>
    if is_seq tp then CSVList (unwrap_seq_type tp)
    else if op = .like ∨ op = .ilike ∨ op = .not_like ∨ op = .not_ilike then .str
    else if op = .is_null then .bool
    else if op = .in_ ∨ op = .not_in then CSVList tp
    else tp

/-- `_get_field_name` from `fastapi_filters/filters.py`: the internal
dataclass attribute name for a (field, operator) pair. -/
def _get_field_name (name : String) (op : FilterOperator) : String :=
  let lookup_expr := lookupExprOf op
  if lookup_expr = "" then name ++ "__" ++ op.opName
  else if lookup_expr.startsWith "__" then name ++ lookup_expr
  else name ++ "__" ++ lookup_expr

/-- `field_filter_to_raw_fields` from `fastapi_filters/filters.py` with the
process-wide default alias generator (`alias_generator_config` defaults to
`default_alias_generator`). Each tuple is
(dataclass field name, declared type, operator, generated alias). -/
def field_filter_to_raw_fields (name : String) (field : FilterField) :
    List (String × Ty × FilterOperator × Option String) :=
  (name, field.type, field.default_op, field.alias_) ::
    field.operators.map (fun op =>
      (_get_field_name name op, field.type, op,
        some (default_alias_generator name op field.alias_)))

/-- The external bound name of a generated parameter: `create_filters`
passes each tuple's alias to the binding site (`in_(alias=alias)`), so the
caller-facing name is the alias when one was generated, and the dataclass
field name otherwise. -/
def bound_name (t : String × Ty × FilterOperator × Option String) : String :=
  match t.2.2.2 with
  | some a => a
  | none => t.1

/-- Python values as seen by `schemas.csv_list_validator`: strings,
numbers, booleans, `None`, lists, and an opaque remainder (`other`). -/
inductive PyVal
  | str (s : String)
  | int (n : Int)
  | bool (b : Bool)
  | none
  | list (xs : List PyVal)
  | other (tag : String)
deriving Repr

/-- Python `s.split(",")` for a single-character separator: cut at every
comma, keeping empty segments (`"".split(",") == [""]`). -/
def splitCommaAux : List Char → List Char → List String
  | [], acc => [String.mk acc.reverse]
  | c :: cs, acc =>
    if c = ',' then String.mk acc.reverse :: splitCommaAux cs []
    else splitCommaAux cs (c :: acc)

/-- Python `s.split(",")`. -/
def pySplitComma (s : String) : List String := splitCommaAux s.data []

/-- Python `sep.join(xs)`. -/
def pyJoin (sep : String) : List String → String
  | [] => ""
  | [x] => x
  | x :: xs => x ++ sep ++ pyJoin sep xs

mutual
/-- Python `str(v)` for the values above (`repr` is used for elements of a
list, matching CPython's container printing). -/
def pyStr : PyVal → String
  | .str s => s
  | .int n => toString n
  | .bool true => "True"
  | .bool false => "False"
  | .none => "None"
  | .list xs => "[" ++ pyReprList xs ++ "]"
  | .other tag => tag

/-- Python `repr(v)`, needed only through `pyStr` on lists. -/
def pyRepr : PyVal → String
  | .str s => "\x27" ++ s ++ "\x27"
  | .int n => toString n
  | .bool true => "True"
  | .bool false => "False"
  | .none => "None"
  | .list xs => "[" ++ pyReprList xs ++ "]"
  | .other tag => tag

/-- Comma-joined `repr`s of a list's elements. -/
def pyReprList : List PyVal → String
  | [] => ""
  | [x] => pyRepr x
  | x :: xs => pyRepr x ++ ", " ++ pyReprList xs
end

/-- Is the value a Python `str`? (the `case str()` pattern). -/
def isStrVal : PyVal → Bool
  | .str _ => true
  | _ => false

/-- Is the value a Python `list`? (the `case list()` patterns). -/
def isListVal : PyVal → Bool
  | .list _ => true
  | _ => false

/-- The string payload of a `str` value (total; the default branch is
unreachable where it is used, under an `isStrVal` guard). -/
def strValOf : PyVal → String
  | .str s => s
  | _ => ""

/-- `csv_list_validator` from `fastapi_filters/schemas.py`. The three
`match` arms: a string is split on commas; a list of strings is joined
with commas and re-split; any other list is stringified element-wise,
joined and re-split; everything else passes through unchanged. -/
def csv_list_validator (v : PyVal) : PyVal :=
  match v with
  | .str s => .list ((pySplitComma s).map .str)
  | .list xs =>
    if xs.all isStrVal then
      .list ((pySplitComma (pyJoin "," (xs.map strValOf))).map .str)
    else
      .list ((pySplitComma (pyJoin "," (xs.map pyStr))).map .str)
  | v => v

/-- JSON values of the generated OpenAPI schema; objects are association
lists in insertion order, as Python dicts are. -/
inductive Json
  | null
  | bool (b : Bool)
  | num (n : Int)
  | str (s : String)
  | arr (xs : List Json)
  | obj (kvs : List (String × Json))
deriving Repr

/-- Python dict assignment `d[k] = v`: overwrite the (unique) existing
binding in place, or append a new binding at the end. -/
def dictSet (k : String) (v : Json) : List (String × Json) → List (String × Json)
  | [] => [(k, v)]
  | (k', v') :: rest =>
    if k' = k then (k', v) :: rest else (k', v') :: dictSet k v rest

/-- Python `d.pop(k)`'s effect on the dict: remove the binding for `k`
(dict keys are unique, so removing every binding for `k` is the same). -/
def dictPop (k : String) : List (String × Json) → List (String × Json)
  | [] => []
  | (k', v) :: rest => if k' = k then dictPop k rest else (k', v) :: dictPop k rest

/-- The body of the parameter loop in `_fix_openapi_schema`
(`fastapi_filters_standard/docs.py`): when the parameter's `schema` dict
has an `explode` binding, pop it from the schema and assign it on the
parameter itself; otherwise leave the parameter untouched. (A non-dict
`schema` value never occurs in a generated OpenAPI document and is left
untouched here.) -/
def fixParam (p : List (String × Json)) : List (String × Json) :=
  match alookup "schema" p with
  | some (Json.obj s) =>
    match alookup "explode" s with
    | some e => dictSet "explode" e (dictSet "schema" (Json.obj (dictPop "explode" s)) p)
    | none => p
  | _ => p

/-- `fixParam` lifted to a JSON value (the parameters array holds objects). -/
def fixParamJ : Json → Json
  | .obj p => .obj (fixParam p)
  | j => j

/-- The effect of the parameter loop on one endpoint entry: the value under
the `"parameters"` key has each of its elements rewritten by `fixParam`;
every other endpoint entry is untouched. -/
def fixParamsValue (k : String) (v : Json) : Json :=
  if k = "parameters" then
    match v with
    | Json.arr ps => Json.arr (ps.map fixParamJ)
    | o => o
  else v

/-- The endpoint loop body of `_fix_openapi_schema`: rewrite the entries of
`endpoint.get("parameters", ())`; all other endpoint keys are untouched. -/
def fixEndpoint (ep : List (String × Json)) : List (String × Json) :=
  ep.map (fun kv => (kv.1, fixParamsValue kv.1 kv.2))

/-- `fixEndpoint` lifted to a JSON value (`endpoints.values()` holds
endpoint objects). -/
def fixEndpointJ : Json → Json
  | .obj ep => .obj (fixEndpoint ep)
  | o => o

/-- One path item: every endpoint (method) object under it is rewritten. -/
def fixPathItem : Json → Json
  | .obj endpoints => .obj (endpoints.map (fun ekv => (ekv.1, fixEndpointJ ekv.2)))
  | o => o

/-- The `"paths"` object: every path item under it is rewritten. -/
def fixPaths : Json → Json
  | .obj paths => .obj (paths.map (fun pkv => (pkv.1, fixPathItem pkv.2)))
  | o => o

/-- The effect of `_fix_openapi_schema` on one top-level entry: only the
value under `"paths"` is rewritten. -/
def fixTopValue (k : String) (v : Json) : Json :=
  if k = "paths" then fixPaths v else v

/-- `_fix_openapi_schema` from `fastapi_filters_standard/docs.py`, as the
function from the input document to the mutated document: every endpoint of
every path under `"paths"` has its parameters rewritten by `fixParam`;
everything else is untouched. -/
def _fix_openapi_schema (doc : List (String × Json)) : List (String × Json) :=
  doc.map (fun kv => (kv.1, fixTopValue kv.1 kv.2))

/-- Does a parameter object carry the non-exploded marker (an `"explode"`
key inside its `"schema"` object)? -/
def hasExplodeMarker : Json → Bool
  | .obj p =>
    match alookup "schema" p with
    | some (Json.obj s) => (alookup "explode" s).isSome
    | _ => false
  | _ => false

/-- Modelled from the spec: `create_sorting` lives in
`fastapi_filters_standard/sorters.py`, which is not among the provided
sources (only `tests/test_sorters.py` exercises it). Per the spec, an
explicitly supplied default sort field that is not among the declared
sortable fields is rejected immediately at construction time with a
descriptive error naming the invalid field (the test expects the message
`Default sort field invalid is not in ...`); otherwise construction
succeeds. Only the default-field validation is modelled. -/
def create_sorting (fields : List String) (default : Option String) :
    Except String (List String) :=
  match default with
  | Option.none => .ok fields
  | some d =>
    if d ∈ fields then .ok fields
    else .error ("Default sort field " ++ d ++ " is not in " ++
      String.intercalate ", " fields)

/-- One iteration of the `_get_filters` loop (`fastapi_filters/filters.py`):
`values[name][op] = value` for a present value, skip an absent one. The
nested dicts are modelled as the function sending (field name, operator) to
the stored value, if any. -/
def resolveStep {V : Type} (defs : String → String × FilterOperator)
    (acc : String → FilterOperator → Option V) (kv : String × Option V) :
    String → FilterOperator → Option V :=
  match kv.2 with
  | some v => fun n op => if n = (defs kv.1).1 ∧ op = (defs kv.1).2 then some v else acc n op
  | Option.none => acc

/-- The `_get_filters` dependency built by `create_filters`: iterate over
the bag's attributes in order (`asdict(f).items()`), keeping only
non-`None` values, grouped via `defs` as field name → operator → value.
`defs` is total here because the bag's attribute names are exactly the keys
of the `defs` dict by construction. -/
def _get_filters {V : Type} (defs : String → String × FilterOperator)
    (bag : List (String × Option V)) : String → FilterOperator → Option V :=
  bag.foldl (resolveStep defs) (fun _ _ => Option.none)

/-- `LOOKUP_EXPRESSIONS` from `fastapi_filters_standard/filters.py`. -/
def std_LOOKUP_EXPRESSIONS : List (FilterOperator × String) :=
  [ (.eq, "")
  , (.ne, "__ne")
  , (.gt, "__gt")
  , (.ge, "__gte")
  , (.lt, "__lt")
  , (.le, "__lte")
  , (.like, "__contains")
  , (.not_like, "__not_like")
  , (.ilike, "__icontains")
  , (.not_ilike, "__not_ilike")
  , (.in_, "__in")
  , (.not_in, "__not_in")
  , (.is_null, "__isnull")
  , (.overlap, "__overlap")
  , (.not_overlap, "__not_overlap")
  , (.contains, "__contains")
  , (.not_contains, "__not_contains")
  ]

/-- `default_alias_generator` from `fastapi_filters_standard/filters.py`. -/
def std_default_alias_generator (name : String) (op : FilterOperator)
    (alias_ : Option String) : String :=
  let name := match alias_ with
    | some a => if a = "" then name else a
    | none => name
  let lookup_expr :=
    (alookup op std_LOOKUP_EXPRESSIONS).getD ("__" ++ rstripUnderscores op.opName)
  if lookup_expr = "" then name
  else name ++ lookup_expr

/-- `adapt_type` from `fastapi_filters_standard/filters.py`. -/
def std_adapt_type (field : FilterField) (tp : Ty) (op : FilterOperator) : Ty :=
  match alookup op field.op_types with
  | some t => t
  | none =>
    if is_seq tp then CSVList (unwrap_seq_type tp)
    else if op = .like ∨ op = .ilike ∨ op = .not_like ∨ op = .not_ilike then .str
    else if op = .is_null then .bool
    else if op = .in_ ∨ op = .not_in then CSVList tp
    else tp

/-- The effective base of a generated alias (`name = alias or name`). -/
def aliasBase (name : String) (alias_ : Option String) : String :=
  match alias_ with
  | some a => if a = "" then name else a
  | none => name

/-- The value stored by the last loop iteration that writes the slot
(field `n`, operator `op`): Python dict assignment lets later writes win. -/
def lastMatch {V : Type} (defs : String → String × FilterOperator)
    (n : String) (op : FilterOperator) : List (String × Option V) → Option V
  | [] => Option.none
  | kv :: rest =>
    match lastMatch defs n op rest with
    | some v => some v
    | Option.none =>
      match kv.2 with
      | some v =>
        if n = (defs kv.1).1 ∧ op = (defs kv.1).2 then some v else Option.none
      | Option.none => Option.none

/-- Definition index for the C5 resolver scenario: field `age` with default
operator `eq` and additional operators `gt` and `lt`. -/
def exDefs : String → String × FilterOperator := fun k =>
  if k = "age__gt" then ("age", .gt)
  else if k = "age__lt" then ("age", .lt)
  else ("age", .eq)

/-- Parameter bag for the C5 resolver scenario: only `age__gt` was supplied
(value 18); the other attributes sit at their absent default. -/
def exBag : List (String × Option Int) :=
  [("age", Option.none), ("age__gt", some 18), ("age__lt", Option.none)]

/-- Example parameter schema for the C8 witness: an array schema carrying
the non-exploded marker. -/
def exSchema : List (String × Json) :=
  [("type", Json.str "array"), ("explode", Json.bool false)]

/-- Example OpenAPI parameter for the C8 witness. -/
def exParam : List (String × Json) :=
  [("name", Json.str "q1"), ("in", Json.str "query"), ("schema", Json.obj exSchema)]

example :
    (field_filter_to_raw_fields "f"
      ⟨Ty.str, .eq, [.like, .contains], none, []⟩).map bound_name
    = ["f", "f__contains", "f__contains"] := by decide

example : default_alias_generator "age" .gt none = "age__gt" := by decide

example : csv_list_validator (.str "1,2,3")
    = .list [.str "1", .str "2", .str "3"] := rfl
example : csv_list_validator (.list [.str "1", .str "2", .str "3"])
    = .list [.str "1", .str "2", .str "3"] := rfl
example : csv_list_validator (.str "a,,b")
    = .list [.str "a", .str "", .str "b"] := rfl
example : csv_list_validator (.list [.int 1, .int 2])
    = .list [.str "1", .str "2"] := rfl
example : csv_list_validator (.int 7) = .int 7 := rfl

/-! Helper lemmas. -/

theorem string_append_left_cancel {s a b : String} (h : s ++ a = s ++ b) : a = b := by
  have h2 := congrArg String.data h
  simp only [String.data_append] at h2
  exact String.ext (List.append_cancel_left h2)

theorem string_eq_empty_of_length {s : String} (h : s.length = 0) : s = "" := by
  cases s with
  | mk data =>
    simp [String.length] at h
    simp [h]

theorem string_append_ne_left {a b : String} (hb : b ≠ "") : a ++ b ≠ a := by
  intro h
  have h2 := congrArg String.length h
  rw [String.length_append] at h2
  exact hb (string_eq_empty_of_length (by omega))

theorem string_append_ne_empty {a b : String} (hb : b ≠ "") : a ++ b ≠ "" := by
  intro h
  have h2 := congrArg String.length h
  rw [String.length_append, String.length_empty] at h2
  exact hb (string_eq_empty_of_length (by omega))

theorem lookupExprOf_ne_empty : ∀ op : FilterOperator, op ≠ .eq → lookupExprOf op ≠ "" := by
  decide

theorem lookupExprOf_almost_inj : ∀ op₁ op₂ : FilterOperator,
    lookupExprOf op₁ = lookupExprOf op₂ →
    op₁ = op₂ ∨ (op₁ = .like ∧ op₂ = .contains) ∨ (op₁ = .contains ∧ op₂ = .like) := by
  decide

theorem default_alias_generator_of_ne_eq (name : String) (al : Option String)
    (op : FilterOperator) (h : op ≠ .eq) :
    default_alias_generator name op al = aliasBase name al ++ lookupExprOf op := by
  have hne := lookupExprOf_ne_empty op h
  simp only [default_alias_generator, aliasBase]
  rw [if_neg hne]

theorem alookup_dictSet_self (k : String) (v : Json) (l : List (String × Json)) :
    alookup k (dictSet k v l) = some v := by
  induction l with
  | nil => simp [dictSet, alookup]
  | cons kv rest ih =>
    obtain ⟨k', v'⟩ := kv
    by_cases hk : k' = k
    · simp [dictSet, alookup, hk]
    · simp [dictSet, alookup, hk, ih]

theorem alookup_dictSet_ne {k k' : String} (hk : k' ≠ k) (v : Json)
    (l : List (String × Json)) : alookup k' (dictSet k v l) = alookup k' l := by
  induction l with
  | nil => simp [dictSet, alookup, Ne.symm hk]
  | cons kv rest ih =>
    obtain ⟨k₀, v₀⟩ := kv
    by_cases h0 : k₀ = k
    · subst h0
      simp [dictSet, alookup, Ne.symm hk]
    · simp [dictSet, alookup, h0, ih]

theorem alookup_dictPop_self (k : String) (l : List (String × Json)) :
    alookup k (dictPop k l) = none := by
  induction l with
  | nil => simp [dictPop, alookup]
  | cons kv rest ih =>
    obtain ⟨k₀, v₀⟩ := kv
    by_cases h0 : k₀ = k
    · simpa [dictPop, alookup, h0] using ih
    · simpa [dictPop, alookup, h0] using ih

theorem alookup_dictPop_ne {k k' : String} (hk : k' ≠ k)
    (l : List (String × Json)) : alookup k' (dictPop k l) = alookup k' l := by
  induction l with
  | nil => simp [dictPop, alookup]
  | cons kv rest ih =>
    obtain ⟨k₀, v₀⟩ := kv
    by_cases h0 : k₀ = k
    · subst h0
      simp [dictPop, alookup, Ne.symm hk, ih]
    · simp [dictPop, alookup, h0, ih]

theorem foldl_resolveStep_char {V : Type} (defs : String → String × FilterOperator)
    (bag : List (String × Option V)) :
    ∀ (acc : String → FilterOperator → Option V) (n : String) (op : FilterOperator),
      bag.foldl (resolveStep defs) acc n op =
        match lastMatch defs n op bag with
        | some v => some v
        | Option.none => acc n op := by
  induction bag with
  | nil => intro acc n op; simp [lastMatch]
  | cons kv rest ih =>
    intro acc n op
    rw [List.foldl_cons, ih]
    cases hrest : (lastMatch defs n op rest : Option V) with
    | some v => simp [lastMatch, hrest]
    | none =>
      cases hkv : kv.2 with
      | some v =>
        by_cases hc : n = (defs kv.1).1 ∧ op = (defs kv.1).2
        · obtain ⟨hc1, hc2⟩ := hc
          subst hc1
          subst hc2
          simp [lastMatch, hrest, hkv, resolveStep]
        · simp [lastMatch, hrest, hkv, resolveStep, hc]
      | none => simp [lastMatch, hrest, hkv, resolveStep]

theorem lastMatch_none {V : Type} (defs : String → String × FilterOperator)
    (n : String) (op : FilterOperator) (bag : List (String × Option V))
    (h : ∀ k v, (k, some v) ∈ bag → ¬(n = (defs k).1 ∧ op = (defs k).2)) :
    lastMatch defs n op bag = Option.none := by
  induction bag with
  | nil => simp [lastMatch]
  | cons kv rest ih =>
    have hrest : lastMatch defs n op rest = (Option.none : Option V) :=
      ih (fun k v hk => h k v (List.mem_cons_of_mem kv hk))
    cases hkv : kv.2 with
    | some v =>
      have hmem : (kv.1, some v) ∈ kv :: rest := by
        rw [show ((kv.1 : String), some v) = kv from Prod.ext rfl hkv.symm]
        exact List.mem_cons_self kv rest
      simp [lastMatch, hrest, hkv, h kv.1 v hmem]
    | none => simp [lastMatch, hrest, hkv]

theorem lastMatch_some {V : Type} (defs : String → String × FilterOperator)
    (bag : List (String × Option V)) (key : String) (v : V)
    (hnd : (bag.map Prod.fst).Nodup)
    (hmem : (key, some v) ∈ bag)
    (huniq : ∀ k' v', (k', some v') ∈ bag → defs k' = defs key → k' = key) :
    lastMatch defs (defs key).1 (defs key).2 bag = some v := by
  induction bag with
  | nil => cases hmem
  | cons kv rest ih =>
    rcases List.mem_cons.mp hmem with hhd | htl
    · have hkey : kv.1 = key := by rw [← hhd]
      have hval : kv.2 = some v := by rw [← hhd]
      have hrest : lastMatch defs (defs key).1 (defs key).2 rest = (Option.none : Option V) := by
        apply lastMatch_none
        intro k' v' hk' hc
        have hdefs : defs k' = defs key := Prod.ext hc.1.symm hc.2.symm
        have hkk : k' = key := huniq k' v' (List.mem_cons_of_mem kv hk') hdefs
        have hk1 : key ∈ rest.map Prod.fst := by
          rw [← hkk]
          exact List.mem_map_of_mem Prod.fst hk'
        rw [List.map_cons, hkey] at hnd
        exact (List.nodup_cons.mp hnd).1 hk1
      simp [lastMatch, hrest, hval, hkey]
    · have hrest : lastMatch defs (defs key).1 (defs key).2 rest = some v := by
        apply ih
        · rw [List.map_cons] at hnd
          exact (List.nodup_cons.mp hnd).2
        · exact htl
        · intro k' v' hk' hd
          exact huniq k' v' (List.mem_cons_of_mem kv hk') hd
      simp [lastMatch, hrest]

/-- C2 counterexample: `like` and `contains` are two distinct non-equality
operators, yet `default_alias_generator` gives them the same generated
name (`LOOKUP_EXPRESSIONS` maps both to the suffix `__contains`), refuting
the claim that any two distinct non-equality operators get distinct
suffixes. -/
theorem claim_C2_counterexample :
    FilterOperator.like ≠ FilterOperator.eq ∧
    FilterOperator.contains ≠ FilterOperator.eq ∧
    FilterOperator.like ≠ FilterOperator.contains ∧
    default_alias_generator "name" .like Option.none =
      default_alias_generator "name" .contains Option.none := by
  exact ⟨by decide, by decide, by decide, rfl⟩

/-- C2 (amended): `default_alias_generator(name, eq)` returns `name`
unchanged; every other operator appends its fixed nonempty suffix; and any
two distinct non-equality operators other than the pair `like`/`contains`
(which share the suffix `__contains`) have distinct suffixes. -/
theorem claim_C2 :
    (∀ name : String, default_alias_generator name .eq Option.none = name) ∧
    (∀ (name : String) (op : FilterOperator), op ≠ .eq →
      default_alias_generator name op Option.none = name ++ lookupExprOf op ∧
        lookupExprOf op ≠ "") ∧
    (∀ op₁ op₂ : FilterOperator, op₁ ≠ .eq → op₂ ≠ .eq → op₁ ≠ op₂ →
      ¬(op₁ = .like ∧ op₂ = .contains) → ¬(op₁ = .contains ∧ op₂ = .like) →
      lookupExprOf op₁ ≠ lookupExprOf op₂) := by
  refine ⟨fun name => rfl, ?_, ?_⟩
  · intro name op h
    exact ⟨default_alias_generator_of_ne_eq name Option.none op h,
      lookupExprOf_ne_empty op h⟩
  · intro op₁ op₂ h1 h2 hne hp1 hp2 heq
    rcases lookupExprOf_almost_inj op₁ op₂ heq with h | h | h
    · exact hne h
    · exact hp1 h
    · exact hp2 h

/-- C2 witness: the amended claim at `name = "age"`, `op = gt`. -/
theorem claim_C2_witness :
    default_alias_generator "age" .gt Option.none = "age" ++ lookupExprOf .gt ∧
      lookupExprOf .gt ≠ "" :=
  claim_C2.2.1 "age" .gt (by decide)

/-- C3: `adapt_type` resolution order, first match winning: (1) an explicit
per-operator override for exactly this operator; (2) a sequence-typed
declared type always becomes the CSV-list of its element type, for every
operator; (3) pattern operators give `str`; (4) `is_null` gives `bool`;
(5) membership operators give the CSV-list of the declared type; (6)
otherwise the declared type is returned unchanged. -/
theorem claim_C3 (field : FilterField) (tp : Ty) (op : FilterOperator) :
    (∀ t, alookup op field.op_types = some t → adapt_type field tp op = t) ∧
    (alookup op field.op_types = Option.none → is_seq tp = true →
      adapt_type field tp op = CSVList (unwrap_seq_type tp)) ∧
    (alookup op field.op_types = Option.none → is_seq tp = false →
      op = .like ∨ op = .ilike ∨ op = .not_like ∨ op = .not_ilike →
      adapt_type field tp op = .str) ∧
    (alookup op field.op_types = Option.none → is_seq tp = false →
      op = .is_null → adapt_type field tp op = .bool) ∧
    (alookup op field.op_types = Option.none → is_seq tp = false →
      op = .in_ ∨ op = .not_in → adapt_type field tp op = CSVList tp) ∧
    (alookup op field.op_types = Option.none → is_seq tp = false →
      ¬(op = .like ∨ op = .ilike ∨ op = .not_like ∨ op = .not_ilike) →
      op ≠ .is_null → ¬(op = .in_ ∨ op = .not_in) →
      adapt_type field tp op = tp) := by
  refine ⟨?_, ?_, ?_, ?_, ?_, ?_⟩
  · intro t h
    simp [adapt_type, h]
  · intro h hseq
    simp [adapt_type, h, hseq]
  · intro h hseq hop
    rcases hop with h1 | h1 | h1 | h1 <;> subst h1 <;> simp [adapt_type, h, hseq]
  · intro h hseq hop
    subst hop
    simp [adapt_type, h, hseq]
  · intro h hseq hop
    rcases hop with h1 | h1 <;> subst h1 <;> simp [adapt_type, h, hseq]
  · intro h hseq h1 h2 h3
    simp [adapt_type, h, hseq, h1, h2, h3]

/-- C3 witness: a sequence-typed field with no overrides adapts to the
CSV-list of the element type also under a range operator. -/
theorem claim_C3_witness :
    adapt_type ⟨Ty.seq Ty.int, .eq, [], Option.none, []⟩ (Ty.seq Ty.int) .gt
      = Ty.csvList Ty.int :=
  (claim_C3 ⟨Ty.seq Ty.int, .eq, [], Option.none, []⟩ (Ty.seq Ty.int) .gt).2.1 rfl rfl

/-- C4: the repeated-parameter encoding (a list of strings) and the single
comma-joined string encoding normalize to the identical sequence; in
particular `"1,2,3"` and `["1","2","3"]` both give `["1","2","3"]`, with
no trimming and empty segments preserved. -/
theorem claim_C4 :
    (∀ vs : List String,
      csv_list_validator (.list (vs.map .str)) =
        csv_list_validator (.str (pyJoin "," vs))) ∧
    csv_list_validator (.str "1,2,3") = .list [.str "1", .str "2", .str "3"] ∧
    csv_list_validator (.list [.str "1", .str "2", .str "3"])
      = .list [.str "1", .str "2", .str "3"] ∧
    csv_list_validator (.str "a,,b") = .list [.str "a", .str "", .str "b"] := by
  refine ⟨?_, rfl, rfl, rfl⟩
  have hall : ∀ ws : List String, (ws.map PyVal.str).all isStrVal = true := by
    intro ws
    induction ws with
    | nil => rfl
    | cons x xs ih => simp [isStrVal, ih]
  have hback : ∀ ws : List String, (ws.map PyVal.str).map strValOf = ws := by
    intro ws
    induction ws with
    | nil => rfl
    | cons x xs ih => simp only [List.map_cons, strValOf, ih]
  intro vs
  simp [csv_list_validator, hall vs, hback vs]

/-- C6: `csv_list_validator` is total: any value that is neither a string
nor a list passes through unchanged, while every string and every list
yields a list of strings. -/
theorem claim_C6 (v : PyVal) :
    (isStrVal v = false → isListVal v = false → csv_list_validator v = v) ∧
    (isStrVal v = true ∨ isListVal v = true →
      ∃ ss : List String, csv_list_validator v = .list (ss.map .str)) := by
  constructor
  · intro h1 h2
    cases v <;> simp_all [isStrVal, isListVal, csv_list_validator]
  · intro h
    cases v with
    | str s => exact ⟨pySplitComma s, rfl⟩
    | list xs =>
      by_cases hall : xs.all isStrVal = true
      · exact ⟨pySplitComma (pyJoin "," (xs.map strValOf)),
          by simp [csv_list_validator, hall]⟩
      · exact ⟨pySplitComma (pyJoin "," (xs.map pyStr)),
          by simp [csv_list_validator, hall]⟩
    | int n => simp [isStrVal, isListVal] at h
    | bool b => simp [isStrVal, isListVal] at h
    | none => simp [isStrVal, isListVal] at h
    | other t => simp [isStrVal, isListVal] at h

/-- C6 witness: a non-string, non-list value passes through unchanged. -/
theorem claim_C6_witness : csv_list_validator (.int 7) = .int 7 :=
  (claim_C6 (.int 7)).1 rfl rfl

/-- C7: `create_sorting` with a default sort field not among the declared
sortable fields fails at construction time with an error naming the
invalid field; when the default is declared (or absent), construction
succeeds. -/
theorem claim_C7 :
    (∀ (fields : List String) (d : String), d ∉ fields →
      create_sorting fields (some d) =
        .error ("Default sort field " ++ d ++ " is not in " ++
          String.intercalate ", " fields)) ∧
    (∀ (fields : List String) (d : String), d ∈ fields →
      create_sorting fields (some d) = .ok fields) ∧
    (∀ fields : List String, create_sorting fields Option.none = .ok fields) := by
  refine ⟨?_, ?_, fun fields => rfl⟩
  · intro fields d h
    simp [create_sorting, h]
  · intro fields d h
    simp [create_sorting, h]

/-- C7 witness: the test scenario — default `"invalid"` against
`name, age, created_at` is rejected with the expected message. -/
theorem claim_C7_witness :
    create_sorting ["name", "age", "created_at"] (some "invalid") =
      .error ("Default sort field " ++ "invalid" ++ " is not in " ++
        String.intercalate ", " ["name", "age", "created_at"]) :=
  claim_C7.1 ["name", "age", "created_at"] "invalid" (by decide)

/-- C9: the two compiler variants agree on their shared core: the standard
variant's `default_alias_generator` and `adapt_type` coincide with the base
variant's on every input. -/
theorem claim_C9 :
    (∀ (name : String) (op : FilterOperator) (al : Option String),
      default_alias_generator name op al = std_default_alias_generator name op al) ∧
    (∀ (field : FilterField) (tp : Ty) (op : FilterOperator),
      adapt_type field tp op = std_adapt_type field tp op) :=
  ⟨fun _ _ _ => rfl, fun _ _ _ => rfl⟩

/-- C10: an empty-string explicit alias is treated as absent: the generated
name is based on the field name, never on the empty alias. -/
theorem claim_C10 (name : String) (op : FilterOperator) :
    default_alias_generator name op (some "") =
      default_alias_generator name op Option.none := rfl

theorem alookup_map_entries (g : String → Json → Json) (l : List (String × Json))
    (k : String) :
    alookup k (l.map (fun kv => (kv.1, g kv.1 kv.2))) = (alookup k l).map (g k) := by
  induction l with
  | nil => simp [alookup]
  | cons kv rest ih =>
    obtain ⟨k₀, v₀⟩ := kv
    by_cases h0 : k₀ = k
    · subst h0
      simp [alookup]
    · simp [alookup, h0, ih]

theorem alookup_map_fixPathItem (l : List (String × Json)) (k : String) :
    alookup k (l.map (fun pkv => (pkv.1, fixPathItem pkv.2)))
      = (alookup k l).map fixPathItem := by
  induction l with
  | nil => simp [alookup]
  | cons kv rest ih =>
    obtain ⟨k₀, v₀⟩ := kv
    by_cases h0 : k₀ = k
    · subst h0
      simp [alookup]
    · simp [alookup, h0, ih]

theorem alookup_map_fixEndpointJ (l : List (String × Json)) (k : String) :
    alookup k (l.map (fun ekv => (ekv.1, fixEndpointJ ekv.2)))
      = (alookup k l).map fixEndpointJ := by
  induction l with
  | nil => simp [alookup]
  | cons kv rest ih =>
    obtain ⟨k₀, v₀⟩ := kv
    by_cases h0 : k₀ = k
    · subst h0
      simp [alookup]
    · simp [alookup, h0, ih]

/-- C1 counterexample: distinctness of the external bound names fails on
subsets of the operator registry. With additional operators
`{like, contains}` both generated aliases are `f__contains`; and with
`eq` itself as an additional operator its generated alias collides with the
bare default parameter name. -/
theorem claim_C1_counterexample :
    ((field_filter_to_raw_fields "f"
        ⟨Ty.str, .eq, [.like, .contains], Option.none, []⟩).map bound_name
      = ["f", "f__contains", "f__contains"]) ∧
    ¬ ((field_filter_to_raw_fields "f"
        ⟨Ty.str, .eq, [.like, .contains], Option.none, []⟩).map bound_name).Nodup ∧
    ((field_filter_to_raw_fields "g"
        ⟨Ty.int, .gt, [.eq], Option.none, []⟩).map bound_name = ["g", "g"]) ∧
    ¬ ((field_filter_to_raw_fields "g"
        ⟨Ty.int, .gt, [.eq], Option.none, []⟩).map bound_name).Nodup :=
  ⟨by decide, by decide, by decide, by decide⟩

/-- C1 (amended): expansion of a field definition always yields exactly
`n + 1` generated parameters for `n` additional operators; the external
bound names are pairwise distinct for every subset of the operator registry
chosen as the additional operators that does not contain `eq` (whose empty
suffix collides with the bare default name) and does not contain both
`like` and `contains` (which share the suffix `__contains`). -/
theorem claim_C1 (name : String) (field : FilterField)
    (hnd : field.operators.Nodup)
    (heq : FilterOperator.eq ∉ field.operators)
    (hlc : ¬(FilterOperator.like ∈ field.operators ∧
      FilterOperator.contains ∈ field.operators)) :
    (field_filter_to_raw_fields name field).length = field.operators.length + 1 ∧
    ((field_filter_to_raw_fields name field).map bound_name).Nodup := by
  constructor
  · simp [field_filter_to_raw_fields]
  · have hmap : (field_filter_to_raw_fields name field).map bound_name =
        bound_name (name, field.type, field.default_op, field.alias_) ::
          field.operators.map
            (fun op => default_alias_generator name op field.alias_) := by
      simp [field_filter_to_raw_fields, bound_name]
    rw [hmap, List.nodup_cons]
    constructor
    · intro hmem
      obtain ⟨op, hop, hgop⟩ := List.mem_map.mp hmem
      have hopne : op ≠ .eq := fun h => heq (h ▸ hop)
      have hsuf : lookupExprOf op ≠ "" := lookupExprOf_ne_empty op hopne
      rw [default_alias_generator_of_ne_eq name field.alias_ op hopne] at hgop
      cases hal : field.alias_ with
      | none =>
        rw [hal] at hgop
        simp only [aliasBase, bound_name] at hgop
        exact string_append_ne_left hsuf hgop
      | some a =>
        rw [hal] at hgop
        by_cases ha : a = ""
        · subst ha
          simp only [aliasBase, bound_name, if_pos rfl] at hgop
          exact string_append_ne_empty hsuf hgop
        · simp only [aliasBase, bound_name, if_neg ha] at hgop
          exact string_append_ne_left hsuf hgop
    · apply List.Nodup.map_on ?_ hnd
      intro x hx y hy hf
      have hxne : x ≠ .eq := fun h => heq (h ▸ hx)
      have hyne : y ≠ .eq := fun h => heq (h ▸ hy)
      rw [default_alias_generator_of_ne_eq name field.alias_ x hxne,
        default_alias_generator_of_ne_eq name field.alias_ y hyne] at hf
      rcases lookupExprOf_almost_inj x y (string_append_left_cancel hf) with h | h | h
      · exact h
      · refine absurd ⟨?_, ?_⟩ hlc
        · rw [← h.1]; exact hx
        · rw [← h.2]; exact hy
      · refine absurd ⟨?_, ?_⟩ hlc
        · rw [← h.2]; exact hy
        · rw [← h.1]; exact hx

/-- C1 witness: the amended claim for field `age` with additional
operators `gt`, `in_`, `like`. -/
theorem claim_C1_witness :
    (field_filter_to_raw_fields "age"
      ⟨Ty.int, .eq, [.gt, .in_, .like], Option.none, []⟩).length = 3 + 1 ∧
    ((field_filter_to_raw_fields "age"
      ⟨Ty.int, .eq, [.gt, .in_, .like], Option.none, []⟩).map bound_name).Nodup :=
  claim_C1 "age" ⟨Ty.int, .eq, [.gt, .in_, .like], Option.none, []⟩
    (by decide) (by decide) (by decide)

/-- C5: the value resolver keeps exactly the generated parameters whose bag
attribute is non-absent — a present attribute's value appears under its
(field, operator) slot, a slot no present attribute maps to is absent from
the output (never null) — and concretely a bag where only `age__gt` is
present with value 18 resolves to `age → gt → 18` and nothing else. -/
theorem claim_C5 :
    (∀ (V : Type) (defs : String → String × FilterOperator)
        (bag : List (String × Option V)) (key : String) (v : V),
      (bag.map Prod.fst).Nodup →
      (key, some v) ∈ bag →
      (∀ k' v', (k', some v') ∈ bag → defs k' = defs key → k' = key) →
      _get_filters defs bag (defs key).1 (defs key).2 = some v) ∧
    (∀ (V : Type) (defs : String → String × FilterOperator)
        (bag : List (String × Option V)) (n : String) (op : FilterOperator),
      (∀ k v, (k, some v) ∈ bag → ¬(n = (defs k).1 ∧ op = (defs k).2)) →
      _get_filters defs bag n op = Option.none) ∧
    (_get_filters exDefs exBag "age" .gt = some (18 : Int)) ∧
    (∀ (n : String) (op : FilterOperator), ¬(n = "age" ∧ op = .gt) →
      _get_filters exDefs exBag n op = Option.none) := by
  have hpresent : ∀ (V : Type) (defs : String → String × FilterOperator)
      (bag : List (String × Option V)) (key : String) (v : V),
      (bag.map Prod.fst).Nodup →
      (key, some v) ∈ bag →
      (∀ k' v', (k', some v') ∈ bag → defs k' = defs key → k' = key) →
      _get_filters defs bag (defs key).1 (defs key).2 = some v := by
    intro V defs bag key v hnd hmem huniq
    rw [_get_filters, foldl_resolveStep_char,
      lastMatch_some defs bag key v hnd hmem huniq]
  have habsent : ∀ (V : Type) (defs : String → String × FilterOperator)
      (bag : List (String × Option V)) (n : String) (op : FilterOperator),
      (∀ k v, (k, some v) ∈ bag → ¬(n = (defs k).1 ∧ op = (defs k).2)) →
      _get_filters defs bag n op = Option.none := by
    intro V defs bag n op h
    rw [_get_filters, foldl_resolveStep_char, lastMatch_none defs n op bag h]
  refine ⟨hpresent, habsent, rfl, ?_⟩
  intro n op h
  apply habsent
  intro k v hk hc
  simp only [exBag, List.mem_cons, List.mem_singleton, List.not_mem_nil] at hk
  rcases hk with hk | hk | hk
  · exact Option.noConfusion (congrArg Prod.snd hk)
  · have hkk : k = "age__gt" := congrArg Prod.fst hk
    subst hkk
    simp only [exDefs, if_pos rfl] at hc
    exact h hc
  · rcases hk with hk | hk
    · exact Option.noConfusion (congrArg Prod.snd hk)
    · exact hk

/-- C5 witness: the two general resolver laws applied to the concrete
scenario: the present `age__gt` attribute yields its value and an untouched
slot yields nothing. -/
theorem claim_C5_witness :
    _get_filters exDefs exBag (exDefs "age__gt").1 (exDefs "age__gt").2
        = some (18 : Int) ∧
    _get_filters exDefs exBag "height" .ne = (Option.none : Option Int) := by
  constructor
  · apply claim_C5.1 Int exDefs exBag "age__gt" 18 (by decide)
    · simp [exBag]
    · intro k' v' hk' hd
      simp only [exBag, List.mem_cons, List.mem_singleton, List.not_mem_nil] at hk'
      rcases hk' with hk | hk | hk
      · exact absurd (congrArg Prod.snd hk) (by simp)
      · exact congrArg Prod.fst hk
      · rcases hk with hk | hk
        · exact absurd (congrArg Prod.snd hk) (by simp)
        · exact absurd hk (by simp)
  · apply claim_C5.2.1 Int exDefs exBag "height" .ne
    intro k v hk
    simp only [exDefs]
    intro hc
    by_cases h1 : k = "age__gt"
    · rw [if_pos h1] at hc
      exact absurd hc.1 (by decide)
    · rw [if_neg h1] at hc
      by_cases h2 : k = "age__lt"
      · rw [if_pos h2] at hc
        exact absurd hc.1 (by decide)
      · rw [if_neg h2] at hc
        exact absurd hc.1 (by decide)

/-- C8: `_fix_openapi_schema` relocates the `explode` marker of every
parameter whose inner type schema carries it onto the parameter descriptor
itself with the same value, removing it from the inner schema and touching
no other key of the parameter or the schema; a parameter without the
marker is left unchanged; non-`paths` document keys are untouched; and the
rewrite reaches exactly the parameters of every endpoint of every path. -/
theorem claim_C8 :
    (∀ (p s : List (String × Json)) (e : Json),
      alookup "schema" p = some (Json.obj s) →
      alookup "explode" s = some e →
      alookup "explode" (fixParam p) = some e ∧
      alookup "schema" (fixParam p) = some (Json.obj (dictPop "explode" s)) ∧
      alookup "explode" (dictPop "explode" s) = Option.none ∧
      (∀ k, k ≠ "explode" → alookup k (dictPop "explode" s) = alookup k s) ∧
      (∀ k, k ≠ "explode" → k ≠ "schema" →
        alookup k (fixParam p) = alookup k p)) ∧
    (∀ j : Json, hasExplodeMarker j = false → fixParamJ j = j) ∧
    (∀ (doc : List (String × Json)) (k : String), k ≠ "paths" →
      alookup k (_fix_openapi_schema doc) = alookup k doc) ∧
    (∀ (doc paths endpoints ep : List (String × Json)) (ps : List Json)
        (path m : String),
      alookup "paths" doc = some (Json.obj paths) →
      alookup path paths = some (Json.obj endpoints) →
      alookup m endpoints = some (Json.obj ep) →
      alookup "parameters" ep = some (Json.arr ps) →
      ∃ paths' endpoints' ep',
        alookup "paths" (_fix_openapi_schema doc) = some (Json.obj paths') ∧
        alookup path paths' = some (Json.obj endpoints') ∧
        alookup m endpoints' = some (Json.obj ep') ∧
        alookup "parameters" ep' = some (Json.arr (ps.map fixParamJ)) ∧
        (∀ k, k ≠ "parameters" → alookup k ep' = alookup k ep)) := by
  refine ⟨?_, ?_, ?_, ?_⟩
  · intro p s e h1 h2
    simp only [fixParam, h1, h2]
    refine ⟨alookup_dictSet_self _ _ _, ?_, alookup_dictPop_self _ _, ?_, ?_⟩
    · rw [alookup_dictSet_ne (by decide), alookup_dictSet_self]
    · intro k hk
      exact alookup_dictPop_ne hk s
    · intro k hk1 hk2
      rw [alookup_dictSet_ne hk1, alookup_dictSet_ne hk2]
  · intro j h
    cases j with
    | obj p =>
      cases h1 : alookup "schema" p with
      | none => simp only [fixParamJ, fixParam, h1]
      | some sv =>
        cases sv with
        | obj s =>
          cases h2 : alookup "explode" s with
          | none => simp only [fixParamJ, fixParam, h1, h2]
          | some e =>
            exfalso
            simp only [hasExplodeMarker, h1, h2, Option.isSome_some] at h
            exact Bool.true_eq_false.mp h
        | null => simp only [fixParamJ, fixParam, h1]
        | bool b => simp only [fixParamJ, fixParam, h1]
        | num n => simp only [fixParamJ, fixParam, h1]
        | str s2 => simp only [fixParamJ, fixParam, h1]
        | arr xs => simp only [fixParamJ, fixParam, h1]
    | null => rfl
    | bool b => rfl
    | num n => rfl
    | str s2 => rfl
    | arr xs => rfl
  · intro doc k hk
    rw [_fix_openapi_schema, alookup_map_entries fixTopValue doc k]
    cases halk : alookup k doc with
    | none => rfl
    | some v => simp [fixTopValue, hk]
  · intro doc paths endpoints ep ps path m h1 h2 h3 h4
    refine ⟨paths.map (fun pkv => (pkv.1, fixPathItem pkv.2)),
      endpoints.map (fun ekv => (ekv.1, fixEndpointJ ekv.2)),
      fixEndpoint ep, ?_, ?_, ?_, ?_, ?_⟩
    · rw [_fix_openapi_schema, alookup_map_entries fixTopValue doc "paths", h1]
      simp [fixTopValue, fixPaths]
    · rw [alookup_map_fixPathItem, h2]
      simp [fixPathItem]
    · rw [alookup_map_fixEndpointJ, h3]
      simp [fixEndpointJ]
    · rw [fixEndpoint, alookup_map_entries fixParamsValue ep "parameters", h4]
      simp [fixParamsValue]
    · intro k hk
      rw [fixEndpoint, alookup_map_entries fixParamsValue ep k]
      cases halk : alookup k ep with
      | none => rfl
      | some v => simp [fixParamsValue, hk]

/-- C8 witness: a parameter whose schema carries `explode: false` ends up
with `explode: false` on the parameter itself and a schema stripped of the
marker. -/
theorem claim_C8_witness :
    alookup "explode" (fixParam exParam) = some (Json.bool false) ∧
    alookup "schema" (fixParam exParam)
      = some (Json.obj (dictPop "explode" exSchema)) :=
  ⟨(claim_C8.1 exParam exSchema (Json.bool false) rfl rfl).1,
   (claim_C8.1 exParam exSchema (Json.bool false) rfl rfl).2.1⟩
